import Mathlib

/-!
Verification of the message-translation core of `swpt_stomp`
(`swpt_stomp/peer_data.py` and `swpt_stomp/process_messages.py`).

Python unbounded integers that hold 64-bit identifiers are embedded as
`Nat` values below `2^64` (the two's-complement representation of the
signed 64-bit value); Python's `&`, `|`, `^` on such values agree with
`Nat.land`, `Nat.lor`, `Nat.xor` on the representations.  Python
exceptions are embedded as explicit error values (`Except`/`Option`):
an `assert` failure or an uncaught exception becomes an error result.
-/

namespace SwptStomp

/-- `NodeType` enum from `peer_data.py`: AA = Accounting Authority,
CA = Creditors Agent, DA = Debtors Agent. -/
inductive NodeType where
  | AA
  | CA
  | DA
deriving DecidableEq, Repr

/-- `Subnet` named tuple from `peer_data.py`: a `(subnet, subnet_mask)`
pair of 64-bit words. -/
structure Subnet where
  subnet : Nat
  subnet_mask : Nat
deriving DecidableEq, Repr

/-- Modelled from the spec: `Subnet.match` (its definition is not part of
`peer_data.py` in this tree; only its call sites in `process_messages.py`
are).  Spec: "A 64-bit integer `x` *matches* `(v, m)` iff `x & m == v`."
Named `matches` because `match` is reserved in Lean. -/
def Subnet.matches (sn : Subnet) (x : Nat) : Bool :=
  x &&& sn.subnet_mask == sn.subnet

/-- A subnet is well formed when its value has no bits outside its mask.
Every subnet produced by `Subnet.parse` is well formed
(`Subnet.parse_wellFormed` below). -/
def Subnet.wellFormed (sn : Subnet) : Bool :=
  sn.subnet &&& sn.subnet_mask == sn.subnet

/-- Value of one hexadecimal digit character, written over `Char.toNat`
(`48–57` = `'0'–'9'`, `97–102` = `'a'–'f'`, `65–70` = `'A'–'F'`);
`0` on other characters (guarded by `isHexDigitChar` at use sites). -/
def hexDigitVal (c : Char) : Nat :=
  if 48 ≤ c.toNat ∧ c.toNat ≤ 57 then c.toNat - 48
  else if 97 ≤ c.toNat ∧ c.toNat ≤ 102 then c.toNat - 87
  else if 65 ≤ c.toNat ∧ c.toNat ≤ 70 then c.toNat - 55
  else 0

/-- Whether a character is a hexadecimal digit (`0-9`, `a-f`, `A-F`). -/
def isHexDigitChar (c : Char) : Bool :=
  (48 ≤ c.toNat ∧ c.toNat ≤ 57) ∨ (97 ≤ c.toNat ∧ c.toNat ≤ 102)
    ∨ (65 ≤ c.toNat ∧ c.toNat ≤ 70)

/-- Value of a big-endian string of hexadecimal digits. -/
def hexVal : List Char → Nat
  | [] => 0
  | c :: cs => hexDigitVal c * 16 ^ cs.length + hexVal cs

/-- Python `int(s, base=16)` restricted to plain strings of hexadecimal
digits (the only shape the spec's "hexadecimal string" covers): `none`
(a `ValueError` in Python) on the empty string or on any non-digit
character. -/
def int16? (cs : List Char) : Option Nat :=
  if cs ≠ [] ∧ cs.all isHexDigitChar then some (hexVal cs) else none

/-- `Subnet.parse` from `peer_data.py`.  The error payload stands for
Python's `ValueError('invalid subnet: ...')` (the source interpolates the
offending string into the message).  The mask `(-1 << (64 - n)) &
0xffffffffffffffff` of the source equals `2^64 - 2^(64 - n)` for
`0 ≤ n ≤ 64`. -/
def Subnet.parse (s : String) : Except String Subnet :=
  let n := 4 * s.length
  if n > 64 then .error "invalid subnet"
  else
    match (if n > 0 then int16? s.data else some 0) with
    | none => .error "invalid subnet"
    | some v =>
      let subnet := if n > 0 then v <<< (64 - n) else 0
      if subnet < 0xffffffffffffffff then
        .ok ⟨subnet, 2 ^ 64 - 2 ^ (64 - n)⟩
      else .error "invalid subnet"

/-- `_change_subnet` from `process_messages.py`.  The two `assert`
statements of the source are embedded as `none` results (a failed
`assert` raises `AssertionError`). -/
def _change_subnet (creditor_id : Nat) (from_ to_ : Subnet) : Option Nat :=
  let mask := from_.subnet_mask
  if mask ≠ to_.subnet_mask then none
  else
    let subnet := creditor_id &&& mask
    if subnet ≠ from_.subnet then none
    else some (to_.subnet ||| (subnet ^^^ creditor_id))

/-- Message data extracted from a JSON body by schema validation.  The
schemas themselves live in `swpt_stomp/smp_schemas.py`, which is not part
of this tree; only the four fields the translation functions read or
write are represented.  `coordinator` holds the `coordinator_id` and
`coordinator_type` fields, present together in the transfer schemas. -/
structure MsgData where
  type : String
  debtor_id : Nat
  creditor_id : Nat
  coordinator : Option (Nat × String)
deriving DecidableEq, Repr

/-- `Message` from `swpt_stomp/common.py` (not part of this tree;
modelled from the spec: a `{id, type, body, content_type}` envelope).
The byte-buffer body is embedded at the level of its parse result:
`some d` stands for bytes that decode (UTF-8 plus JSON) to the object
`d`; `none` stands for bytes that fail decoding. -/
structure Message where
  id : String
  type : String
  body : Option MsgData
  content_type : String
deriving DecidableEq, Repr

/-- A broker-header value: the sources put strings and integers in the
headers dictionary. -/
inductive HVal where
  | str (s : String)
  | int (n : Nat)
deriving DecidableEq, Repr

/-- `RmqMessage` from `swpt_stomp/rmq.py` (not part of this tree;
modelled from the spec's `BrokerMessage`: `Message` plus `headers` and
`routing_key`).  Headers are a list of pairs in insertion order. -/
structure RmqMessage where
  id : String
  type : String
  body : Option MsgData
  headers : List (String × HVal)
  content_type : String
  routing_key : String
deriving DecidableEq, Repr

/-- Owner-node data as accessed by `process_messages.py`
(`node_type`, `creditors_subnet`).  The `NodeData` dataclass in
`peer_data.py` (a different revision of the module) carries `node_id`,
`root_cert` and a single optional `subnet`, none of which the
translation functions use. -/
structure NodeData where
  node_type : NodeType
  creditors_subnet : Subnet
deriving DecidableEq, Repr

/-- Peer data as accessed by `process_messages.py`
(`creditors_subnet`, `debtors_subnet`); certificate and server fields
are not used by the translation functions. -/
structure PeerData where
  creditors_subnet : Subnet
  debtors_subnet : Subnet
deriving DecidableEq, Repr

/-- Modelled from the spec: the client-message half of the schema
partition of `swpt_stomp/smp_schemas.py` (not part of this tree);
representative member taken from the repository's tests. -/
def CLIENT_MESSAGE_TYPES : List String := ["PrepareTransfer"]

/-- Modelled from the spec: the server-message half of the schema
partition; representative members taken from the repository's tests. -/
def SERVER_MESSAGE_TYPES : List String := ["AccountPurge", "RejectedTransfer"]

/-- Whether the schema for type `t` carries `coordinator_id` and
`coordinator_type` fields. -/
def hasCoordinator (t : String) : Bool :=
  t == "PrepareTransfer" || t == "RejectedTransfer"

/-- Modelled from the spec: schema validation of an already-decoded JSON
object `d` against the schema for message type `t`. -/
def schemaValidates (t : String) (d : MsgData) : Bool :=
  d.type == t &&
    (if hasCoordinator t then d.coordinator.isSome else d.coordinator.isNone)

/-- The distinguishable `ProcessingError` causes raised by
`process_messages.py` (the source attaches formatted message strings;
 only the cause matters here). -/
inductive ProcErr where
  | unsupportedContentType
  | invalidMessageType
  | decodeError
  | validationError
  | invalidCreditorId
  | invalidDebtorId
deriving DecidableEq, Repr

/-- `_parse_message_body` from `process_messages.py`, generic over the
common `content_type`/`type`/`body` fields of `Message` and
`RmqMessage`.  The source's `KeyError`-driven type gate (reject a client
type when client messages are not allowed, reject a server type when
server messages are not allowed, reject unknown types) is written as an
if-chain; UTF-8 and JSON failures are both `body = none`. -/
def _parse_message_body (content_type msg_type : String)
    (body : Option MsgData)
    (allow_client_messages allow_server_messages : Bool) :
    Except ProcErr MsgData :=
  if content_type ≠ "application/json" then .error .unsupportedContentType
  else if ¬ allow_client_messages ∧ msg_type ∈ CLIENT_MESSAGE_TYPES then
    .error .invalidMessageType
  else if ¬ allow_server_messages ∧ msg_type ∈ SERVER_MESSAGE_TYPES then
    .error .invalidMessageType
  else if msg_type ∉ CLIENT_MESSAGE_TYPES ∧ msg_type ∉ SERVER_MESSAGE_TYPES
  then .error .invalidMessageType
  else
    match body with
    | none => .error .decodeError
    | some d =>
      if schemaValidates msg_type d then .ok d else .error .validationError

/-- Exceptions escaping `transform_message`: a `ProcessingError`, or an
`AssertionError` from `_change_subnet`. -/
inductive PyExc where
  | processing (e : ProcErr)
  | assertionError
deriving DecidableEq, Repr

/-- `transform_message` from `process_messages.py`. -/
def transform_message (owner_node_data : NodeData) (peer_data : PeerData)
    (message : RmqMessage) : Except PyExc Message :=
  let owner_node_type := owner_node_data.node_type
  match _parse_message_body message.content_type message.type message.body
      (owner_node_type != NodeType.AA) (owner_node_type == NodeType.AA) with
  | .error e => .error (.processing e)
  | .ok msg_data =>
    let creditor_id := msg_data.creditor_id
    if ¬ owner_node_data.creditors_subnet.matches creditor_id then
      .error (.processing .invalidCreditorId)
    else
      let debtor_id := msg_data.debtor_id
      if ¬ peer_data.debtors_subnet.matches debtor_id then
        .error (.processing .invalidDebtorId)
      else
        match (if owner_node_type == NodeType.CA then
                (_change_subnet creditor_id
                    owner_node_data.creditors_subnet
                    peer_data.creditors_subnet).map
                  (fun c => { msg_data with creditor_id := c })
              else some msg_data) with
        | none => .error .assertionError
        | some msg_data2 =>
          .ok ⟨message.id, message.type, some msg_data2, "application/json"⟩

/-- `ServerError` from `swpt_stomp/common.py` (not part of this tree;
field list taken from the raise site in `preprocess_message`). -/
structure ServerError where
  error_message : ProcErr
  receipt_id : String
  context : Option MsgData
  context_type : String
  context_content_type : String
deriving DecidableEq, Repr

/-- Exceptions escaping `preprocess_message`: a `ServerError` (wrapping a
`ProcessingError`), or an `AssertionError` from `_change_subnet`, which
the source's `except ProcessingError` clause does not catch. -/
inductive SrvExc where
  | server (e : ServerError)
  | assertionError
deriving DecidableEq, Repr

/-- `preprocess_message` from `process_messages.py`.  Note two details
of this revision of the source: the `'creditor-id'` header is built from
the local variable `creditor_id` read *before* the CA subnet rewrite,
and `routing_key` is the literal `''` (the source carries
`TODO: Set a routing key.` and `TODO: Verify "coordinator-type".`
comments). -/
def preprocess_message (owner_node_data : NodeData) (peer_data : PeerData)
    (message : Message) : Except SrvExc RmqMessage :=
  let owner_node_type := owner_node_data.node_type
  let wrap : ProcErr → SrvExc := fun e =>
    .server ⟨e, message.id, message.body, message.type, message.content_type⟩
  match _parse_message_body message.content_type message.type message.body
      (owner_node_type == NodeType.AA) (owner_node_type != NodeType.AA) with
  | .error e => .error (wrap e)
  | .ok msg_data =>
    let creditor_id := msg_data.creditor_id
    if ¬ peer_data.creditors_subnet.matches creditor_id then
      .error (wrap .invalidCreditorId)
    else
      let debtor_id := msg_data.debtor_id
      if ¬ peer_data.debtors_subnet.matches debtor_id then
        .error (wrap .invalidDebtorId)
      else
        match (if owner_node_type == NodeType.CA then
                (_change_subnet creditor_id
                    peer_data.creditors_subnet
                    owner_node_data.creditors_subnet).map
                  (fun c => { msg_data with creditor_id := c })
              else some msg_data) with
        | none => .error .assertionError
        | some msg_data2 =>
          let msg_type := message.type
          let headers : List (String × HVal) :=
            [("message-type", .str msg_type),
             ("debtor-id", .int debtor_id),
             ("creditor-id", .int creditor_id)] ++
            (match msg_data2.coordinator with
             | some (cid, ctype) =>
               [("coordinator-id", .int cid),
                ("coordinator-type", .str ctype)]
             | none => [])
          .ok ⟨message.id, msg_type, some msg_data2, headers,
               "application/json", ""⟩

/-- Python whitespace characters recognized by `str.split()` (the ASCII
ones: space, tab, newline, carriage return, vertical tab, form feed). -/
def isPySpace (c : Char) : Bool :=
  c == ' ' || c == '\t' || c == '\n' || c == '\r' || c == '\x0b'
    || c == '\x0c'

/-- Single pass of Python `s.split(maxsplit=m)`.  The third argument is
`none` between tokens and `some acc` (characters collected so far, in
reverse) inside a token; a split is charged when a token ends at a
whitespace character; when the budget hits zero the whole remainder
(leading whitespace stripped, trailing whitespace kept) becomes the last
token. -/
def pySplitWsAux : List Char → Nat → Option (List Char) → List (List Char)
  | [], _, none => []
  | [], _, some acc => [acc.reverse]
  | c :: cs, maxsplit, none =>
    if isPySpace c then pySplitWsAux cs maxsplit none
    else if maxsplit = 0 then [c :: cs]
    else pySplitWsAux cs maxsplit (some [c])
  | c :: cs, maxsplit, some acc =>
    if isPySpace c then acc.reverse :: pySplitWsAux cs (maxsplit - 1) none
    else pySplitWsAux cs maxsplit (some (c :: acc))

/-- Python `s.split(maxsplit=m)`: split on whitespace runs, at most `m`
splits. -/
def pySplitWs (cs : List Char) (maxsplit : Nat) : List (List Char) :=
  pySplitWsAux cs maxsplit none

/-- Python `str.split('.')` (all occurrences): the empty string yields
one empty piece, consecutive separators yield empty pieces. -/
def pySplitOn (sep : Char) : List Char → List (List Char)
  | [] => [[]]
  | c :: cs =>
    if c = sep then [] :: pySplitOn sep cs
    else
      match pySplitOn sep cs with
      | t :: ts => (c :: t) :: ts
      | [] => [[c]]

/-- A character allowed by `_DN_PART_RE`: the class `[a-z0-9-]` compiled
with `IGNORECASE` (digits `48-57`, lowercase `97-122`, uppercase
`65-90`, hyphen). -/
def isDnChar (c : Char) : Bool :=
  (48 ≤ c.toNat ∧ c.toNat ≤ 57) || (97 ≤ c.toNat ∧ c.toNat ≤ 122)
    || (65 ≤ c.toNat ∧ c.toNat ≤ 90) || c == '-'

/-- `_DN_PART_RE.match(label)` from `peer_data.py`: the pattern
`(?!-)[a-z0-9-]{1,63}(?<!-)$` with `IGNORECASE` matches exactly when,
after dropping one trailing newline (Python's `$` also matches just
before a newline that ends the string), the label is 1-63 characters of
the class that neither start nor end with a hyphen. -/
def dnPartMatches (label : List Char) : Bool :=
  let l := match label.getLast? with
    | some c => if c = '\n' then label.dropLast else label
    | none => label
  decide (1 ≤ l.length) && decide (l.length ≤ 63) && l.all isDnChar &&
    (match l.head? with | some c => !(c == '-') | none => false) &&
    (match l.getLast? with | some c => !(c == '-') | none => false)

/-- Exceptions observable from `_parse_servers`. -/
inductive PyErr where
  | valueError
  | indexError
deriving DecidableEq, Repr

/-- `_is_valid_hostname` from `peer_data.py`.  On the empty string the
source's `hostname[-1]` raises `IndexError`, embedded as `.error`. -/
def _is_valid_hostname (hostname : List Char) : Except PyErr Bool :=
  match hostname.getLast? with
  | none => .error .indexError
  | some lastc =>
    let h := if lastc = '.' then hostname.dropLast else hostname
    if h.length > 253 then .ok false
    else .ok ((pySplitOn '.' h).all dnPartMatches)

/-- Split a token on its first `':'` (Python
`server.split(':', maxsplit=1)` followed by two-name unpacking, which
raises `ValueError` when there is no `':'`). -/
def splitFirstColon : List Char → Option (List Char × List Char)
  | [] => none
  | c :: cs =>
    if c = ':' then some ([], cs)
    else
      match splitFirstColon cs with
      | some (h, p) => some (c :: h, p)
      | none => none

/-- Digit-with-underscores accumulator of Python `int(str)`: after a
digit, a digit or a single underscore followed by a digit may follow. -/
def pyDigitsCore : Nat → List Char → Option Nat
  | acc, [] => some acc
  | acc, c :: cs =>
    if 48 ≤ c.toNat ∧ c.toNat ≤ 57 then
      pyDigitsCore (10 * acc + (c.toNat - 48)) cs
    else if c = '_' then
      match cs with
      | c2 :: _ =>
        if 48 ≤ c2.toNat ∧ c2.toNat ≤ 57 then pyDigitsCore acc cs else none
      | [] => none
    else none

/-- Value of a non-empty decimal digit string (underscores between
digits allowed), `none` otherwise. -/
def pyDigits? : List Char → Option Nat
  | [] => none
  | c :: cs =>
    if 48 ≤ c.toNat ∧ c.toNat ≤ 57 then pyDigitsCore 0 (c :: cs) else none

/-- Strip Python whitespace from both ends. -/
def stripPySpaces (cs : List Char) : List Char :=
  ((cs.dropWhile isPySpace).reverse.dropWhile isPySpace).reverse

/-- Python `int(str)` on a decimal token: optional surrounding
whitespace, optional sign, then digits (underscores between digits
allowed). -/
def pyIntDec (cs : List Char) : Option Int :=
  match stripPySpaces cs with
  | '+' :: r => (pyDigits? r).map (fun n => (n : Int))
  | '-' :: r => (pyDigits? r).map (fun n => -(n : Int))
  | r => (pyDigits? r).map (fun n => (n : Int))

/-- The loop body of `_parse_servers` on one whitespace-separated
token. -/
def parseServerToken (server : List Char) : Except PyErr (String × Int) :=
  match splitFirstColon server with
  | none => .error .valueError
  | some (host, port_str) =>
    match _is_valid_hostname host with
    | .error e => .error e
    | .ok false => .error .valueError
    | .ok true =>
      match pyIntDec port_str with
      | none => .error .valueError
      | some port =>
        if 1 ≤ port ∧ port ≤ 65535 then .ok (String.mk host, port)
        else .error .valueError

/-- The token loop of `_parse_servers` (first exception aborts). -/
def parseServersTokens :
    List (List Char) → Except PyErr (List (String × Int))
  | [] => .ok []
  | t :: ts =>
    match parseServerToken t with
    | .error e => .error e
    | .ok hp =>
      match parseServersTokens ts with
      | .error e => .error e
      | .ok r => .ok (hp :: r)

/-- `_parse_servers` from `peer_data.py`. -/
def _parse_servers (s : String) : Except PyErr (List (String × Int)) :=
  parseServersTokens (pySplitWs s.data 10000)

/-- Concrete CA owner node: creditors subnet `000008/24` (as in the
repository's CA test data). -/
def caNode : NodeData := ⟨.CA, ⟨0x0000080000000000, 0xFFFFFF0000000000⟩⟩

/-- Concrete peer of the CA node: creditors subnet `000001/24`, debtors
subnet `1234abcd/32`. -/
def caPeer : PeerData :=
  ⟨⟨0x0000010000000000, 0xFFFFFF0000000000⟩,
   ⟨0x1234ABCD00000000, 0xFFFFFFFF00000000⟩⟩

/-- Concrete AA owner node; its creditors subnet is the empty-prefix
subnet `(0, 0)`, which matches every id. -/
def aaNode : NodeData := ⟨.AA, ⟨0, 0⟩⟩

/-- Peer of the AA node with all-matching subnets. -/
def aaPeer : PeerData := ⟨⟨0, 0⟩, ⟨0, 0⟩⟩

/-- Peer of the AA node shaped like a CA peer (creditors `000001/24`,
debtors `1234abcd/32`). -/
def aaPeerCA : PeerData :=
  ⟨⟨0x0000010000000000, 0xFFFFFF0000000000⟩,
   ⟨0x1234ABCD00000000, 0xFFFFFFFF00000000⟩⟩

/-- A CA owner whose creditors-subnet mask (8 bits) differs from
`peerOddMask`'s creditors-subnet mask (12 bits). -/
def caNodeShort : NodeData := ⟨.CA, ⟨0x0100000000000000, 0xFF00000000000000⟩⟩

/-- Peer with a 12-bit creditors mask and an all-matching debtors
subnet. -/
def peerOddMask : PeerData :=
  ⟨⟨0x0020000000000000, 0xFFF0000000000000⟩, ⟨0, 0⟩⟩

/-- Broker message for the CA-rewrite scenario of the spec:
`PrepareTransfer` with `coordinator_type = "agent"` and a coordinator id
in the owner's creditors subnet. -/
def prepareTransferAgentRmq : RmqMessage :=
  ⟨"1", "PrepareTransfer",
   some ⟨"PrepareTransfer", 0x1234ABCD00000001, 0x0000080000000ABC,
         some (0x0000080000000002, "agent")⟩,
   [], "application/json", ""⟩

/-- Broker message for the AA round-trip scenario. -/
def accountPurgeRmq : RmqMessage :=
  ⟨"1", "AccountPurge", some ⟨"AccountPurge", 5, 7, none⟩,
   [], "application/json", ""⟩

/-- STOMP message with the same body as `accountPurgeRmq`. -/
def accountPurgeMsg : Message :=
  ⟨"1", "AccountPurge", some ⟨"AccountPurge", 5, 7, none⟩,
   "application/json"⟩

/-- Inbound `RejectedTransfer` at the CA node (creditor id in the peer's
creditors subnet). -/
def rejectedTransferMsg : Message :=
  ⟨"1", "RejectedTransfer",
   some ⟨"RejectedTransfer", 0x1234ABCD00000001, 0x0000010100000ABC,
         some (0x0000010100000ABC, "direct")⟩,
   "application/json"⟩

/-- Inbound `PrepareTransfer` at the AA node with coordinator type
`direct`. -/
def prepareTransferDirectMsg : Message :=
  ⟨"1", "PrepareTransfer",
   some ⟨"PrepareTransfer", 0x1234ABCD00000001, 0x0000010000000ABC,
         some (0x0000010000000ABC, "direct")⟩,
   "application/json"⟩

/-- Inbound `PrepareTransfer` at the AA node carrying the coordinator
type `"invalid"`, which no role's allow-list contains. -/
def prepareTransferInvalidCtypeMsg : Message :=
  ⟨"1", "PrepareTransfer",
   some ⟨"PrepareTransfer", 0x1234ABCD00000001, 0x0000010000000ABC,
         some (0x0000020000000ABC, "invalid")⟩,
   "application/json"⟩

/-- Broker message whose ids match `caNodeShort`/`peerOddMask`. -/
def prepareTransferOddRmq : RmqMessage :=
  ⟨"1", "PrepareTransfer",
   some ⟨"PrepareTransfer", 7, 0x0100000000000ABC,
         some (0x0100000000000ABC, "direct")⟩,
   [], "application/json", ""⟩

theorem hexVal_lt (cs : List Char) : hexVal cs < 16 ^ cs.length := by
  induction cs with
  | nil => simp [hexVal]
  | cons c cs ih =>
    have hd : hexDigitVal c ≤ 15 := by
      unfold hexDigitVal
      split
      · omega
      · split
        · omega
        · split
          · omega
          · omega
    have h1 : hexDigitVal c * 16 ^ cs.length ≤ 15 * 16 ^ cs.length :=
      Nat.mul_le_mul_right _ hd
    have h2 : (16 : Nat) ^ (cs.length + 1) = 16 * 16 ^ cs.length := by
      rw [Nat.pow_succ, Nat.mul_comm]
    simp only [hexVal, List.length_cons]
    omega

theorem hexVal_lt_two_pow (cs : List Char) : hexVal cs < 2 ^ (4 * cs.length) := by
  have := hexVal_lt cs
  calc hexVal cs < 16 ^ cs.length := this
    _ = 2 ^ (4 * cs.length) := by
        rw [show (16 : Nat) = 2 ^ 4 from rfl, ← Nat.pow_mul]

theorem int16?_digits (ds : List Char) (hnil : ds ≠ [])
    (hdig : ds.all isHexDigitChar = true) : int16? ds = some (hexVal ds) := by
  unfold int16?
  rw [if_pos ⟨hnil, hdig⟩]

/-- Evaluation of `Subnet.parse` on a non-empty string of at most 16
hexadecimal digits. -/
theorem Subnet.parse_digits (ds : List Char) (hnil : ds ≠ [])
    (hdig : ds.all isHexDigitChar = true) (hlen : ds.length ≤ 16) :
    Subnet.parse (String.mk ds) =
      if hexVal ds <<< (64 - 4 * ds.length) < 0xffffffffffffffff then
        .ok ⟨hexVal ds <<< (64 - 4 * ds.length),
             2 ^ 64 - 2 ^ (64 - 4 * ds.length)⟩
      else .error "invalid subnet" := by
  have hpos0 : 0 < ds.length := List.length_pos.mpr hnil
  have h1 : ¬ (4 * (String.mk ds).length > 64) := by
    rw [String.length_mk]; omega
  have h3 : 4 * (String.mk ds).length > 0 := by
    rw [String.length_mk]; omega
  have h3' : 4 * ds.length > 0 := by omega
  unfold Subnet.parse
  rw [if_neg h1, if_pos h3, int16?_digits ds hnil hdig]
  simp only [String.length_mk, if_pos h3']

theorem wellFormed_shift (v n : Nat) (hn : n ≤ 64) (hv : v < 2 ^ n) :
    Subnet.wellFormed ⟨v <<< (64 - n), 2 ^ 64 - 2 ^ (64 - n)⟩ = true := by
  have hmul : 2 ^ n * 2 ^ (64 - n) = 2 ^ 64 := by
    rw [← pow_add]; congr 1; omega
  have hmask : 2 ^ 64 - 2 ^ (64 - n) = (2 ^ n - 1) <<< (64 - n) := by
    rw [Nat.shiftLeft_eq, Nat.sub_mul, one_mul, hmul]
  simp only [Subnet.wellFormed, beq_iff_eq, hmask]
  apply Nat.eq_of_testBit_eq
  intro i
  simp only [Nat.testBit_and, Nat.testBit_shiftLeft,
    Nat.testBit_two_pow_sub_one]
  by_cases hi : 64 - n ≤ i
  · by_cases hj : i - (64 - n) < n
    · simp [hi, hj]
    · have hb : v.testBit (i - (64 - n)) = false := by
        apply Nat.testBit_lt_two_pow
        exact lt_of_lt_of_le hv (Nat.pow_le_pow_right (by omega) (by omega))
      simp [hi, hb]
  · simp [hi]

theorem Subnet.parse_wellFormed (s : String) (sn : Subnet)
    (h : Subnet.parse s = .ok sn) : sn.wellFormed = true := by
  obtain ⟨ds⟩ := s
  by_cases hlen : 4 * ds.length > 64
  · exfalso
    unfold Subnet.parse at h
    rw [if_pos (by rw [String.length_mk]; exact hlen)] at h
    exact absurd h (by simp)
  · by_cases hnil : ds = []
    · subst hnil
      have hok : Subnet.parse (String.mk []) = .ok ⟨0, 0⟩ := by rfl
      rw [hok] at h
      cases h
      decide
    · by_cases hdig : ds.all isHexDigitChar = true
      · rw [Subnet.parse_digits ds hnil hdig (by omega)] at h
        by_cases hlt :
            hexVal ds <<< (64 - 4 * ds.length) < 0xffffffffffffffff
        · rw [if_pos hlt] at h
          cases h
          apply wellFormed_shift
          · omega
          · exact hexVal_lt_two_pow ds
        · rw [if_neg hlt] at h
          exact absurd h (by simp)
      · exfalso
        unfold Subnet.parse at h
        rw [if_neg (by rw [String.length_mk]; exact hlen)] at h
        rw [if_pos (by
          rw [String.length_mk]
          have := List.length_pos.mpr hnil
          omega)] at h
        have : int16? ds = none := by
          unfold int16?
          rw [if_neg (by
            intro hc
            exact hdig hc.2)]
        rw [this] at h
        exact absurd h (by simp)

theorem mask_eq_shift (n : Nat) (hn : n ≤ 64) :
    2 ^ 64 - 2 ^ (64 - n) = (2 ^ n - 1) <<< (64 - n) := by
  have hmul : 2 ^ n * 2 ^ (64 - n) = 2 ^ 64 := by
    rw [← pow_add]; congr 1; omega
  rw [Nat.shiftLeft_eq, Nat.sub_mul, one_mul, hmul]

theorem shifted_hexVal_lt (ds : List Char) (hlen : ds.length ≤ 16) :
    hexVal ds <<< (64 - 4 * ds.length) < 2 ^ 64 := by
  rw [Nat.shiftLeft_eq]
  calc hexVal ds * 2 ^ (64 - 4 * ds.length)
      < 2 ^ (4 * ds.length) * 2 ^ (64 - 4 * ds.length) := by
        exact (Nat.mul_lt_mul_right
          (Nat.pos_pow_of_pos _ (by omega))).mpr (hexVal_lt_two_pow ds)
    _ = 2 ^ 64 := by rw [← pow_add]; congr 1; omega

/-- Claim C3: for every 64-bit integer `x` and subnets `from_` and `to_`
with equal masks `m`, if `x & m == from_.subnet` then
`_change_subnet(x, from_, to_)` returns `to_.subnet | (x & ~m)` (`~m`
within 64 bits is `m ^^^ (2^64 - 1)`); the masked prefix bits of the
result are exactly those of `to_`, all bits outside the mask are
unchanged, and the result matches `to_`; when the masks of `from_` and
`to_` differ the call fails deterministically (the `assert` fires,
embedded as `none`).  The hypotheses `to_.wellFormed` and
`to_.subnet_mask < 2^64` hold for every subnet of the data model
(`Subnet.parse_wellFormed`). -/
theorem change_subnet_spec (x : Nat) (from_ to_ : Subnet)
    (hx : x < 2 ^ 64) (hwf : to_.wellFormed = true)
    (hmw : to_.subnet_mask < 2 ^ 64) :
    (from_.subnet_mask = to_.subnet_mask → from_.matches x = true →
      _change_subnet x from_ to_ =
        some (to_.subnet ||| (x &&& (to_.subnet_mask ^^^ (2 ^ 64 - 1))))
      ∧ (to_.subnet ||| (x &&& (to_.subnet_mask ^^^ (2 ^ 64 - 1))))
          &&& to_.subnet_mask = to_.subnet
      ∧ to_.matches
          (to_.subnet ||| (x &&& (to_.subnet_mask ^^^ (2 ^ 64 - 1)))) = true
      ∧ ∀ i, to_.subnet_mask.testBit i = false →
          (to_.subnet |||
            (x &&& (to_.subnet_mask ^^^ (2 ^ 64 - 1)))).testBit i
            = x.testBit i)
    ∧ (from_.subnet_mask ≠ to_.subnet_mask →
        _change_subnet x from_ to_ = none) := by
  have hwf' : to_.subnet &&& to_.subnet_mask = to_.subnet := by
    simpa [Subnet.wellFormed] using hwf
  have hsub : ∀ i, to_.subnet.testBit i = false ∨
      to_.subnet_mask.testBit i = true := by
    intro i
    by_cases hm : to_.subnet_mask.testBit i = true
    · exact Or.inr hm
    · left
      have := congrArg (fun t => t.testBit i) hwf'
      simp only [Nat.testBit_and] at this
      rw [← this]
      simp [Bool.eq_false_iff.mpr hm]
  have hmaskhi : ∀ i, 64 ≤ i → to_.subnet_mask.testBit i = false := by
    intro i hi
    exact Nat.testBit_lt_two_pow
      (lt_of_lt_of_le hmw (Nat.pow_le_pow_right (by omega) hi))
  have hxhi : ∀ i, 64 ≤ i → x.testBit i = false := by
    intro i hi
    exact Nat.testBit_lt_two_pow
      (lt_of_lt_of_le hx (Nat.pow_le_pow_right (by omega) hi))
  constructor
  · intro hmask hmatch
    have hm : x &&& from_.subnet_mask = from_.subnet := by
      simpa [Subnet.matches] using hmatch
    have hchg : _change_subnet x from_ to_ =
        some (to_.subnet ||| ((x &&& from_.subnet_mask) ^^^ x)) := by
      unfold _change_subnet
      rw [if_neg (by simp [hmask]), hm, if_neg (by simp)]
    have hrewrite : (x &&& from_.subnet_mask) ^^^ x
        = x &&& (to_.subnet_mask ^^^ (2 ^ 64 - 1)) := by
      rw [hmask]
      apply Nat.eq_of_testBit_eq
      intro i
      simp only [Nat.testBit_xor, Nat.testBit_and,
        Nat.testBit_two_pow_sub_one]
      by_cases hi : i < 64
      · simp only [hi, decide_True]
        cases x.testBit i <;> cases to_.subnet_mask.testBit i <;> rfl
      · have := hxhi i (by omega)
        simp [this]
    refine ⟨by rw [hchg, hrewrite], ?_, ?_, ?_⟩
    · apply Nat.eq_of_testBit_eq
      intro i
      simp only [Nat.testBit_and, Nat.testBit_or, Nat.testBit_xor,
        Nat.testBit_two_pow_sub_one]
      rcases hsub i with hs | hmi
      · by_cases hmi : to_.subnet_mask.testBit i = true
        · by_cases hi : i < 64
          · simp [hs, hmi, hi]
          · have := hmaskhi i (by omega)
            rw [this] at hmi
            exact absurd hmi (by simp)
        · have hmi' := Bool.eq_false_iff.mpr hmi
          simp [hs, hmi']
      · by_cases hi : i < 64
        · simp [hmi, hi]
        · have := hmaskhi i (by omega)
          rw [this] at hmi
          exact absurd hmi (by simp)
    · simp only [Subnet.matches, beq_iff_eq]
      apply Nat.eq_of_testBit_eq
      intro i
      simp only [Nat.testBit_and, Nat.testBit_or, Nat.testBit_xor,
        Nat.testBit_two_pow_sub_one]
      rcases hsub i with hs | hmi
      · by_cases hmi : to_.subnet_mask.testBit i = true
        · by_cases hi : i < 64
          · simp [hs, hmi, hi]
          · have := hmaskhi i (by omega)
            rw [this] at hmi
            exact absurd hmi (by simp)
        · have hmi' := Bool.eq_false_iff.mpr hmi
          simp [hs, hmi']
      · by_cases hi : i < 64
        · simp [hmi, hi]
        · have := hmaskhi i (by omega)
          rw [this] at hmi
          exact absurd hmi (by simp)
    · intro i hmi
      have hts : to_.subnet.testBit i = false := by
        rcases hsub i with hs | hm'
        · exact hs
        · rw [hmi] at hm'
          exact absurd hm' (by simp)
      simp only [Nat.testBit_or, Nat.testBit_and, Nat.testBit_xor,
        Nat.testBit_two_pow_sub_one, hts, hmi]
      by_cases hi : i < 64
      · simp [hi]
      · have := hxhi i (by omega)
        simp [hi, this]
  · intro hne
    unfold _change_subnet
    rw [if_pos hne]

/-- Claim C3 witness: translating `0x0100000000000ABC` from subnet `01/8`
to subnet `02/8` yields `0x0200000000000ABC` (the value pinned by the
repository's own test for `_change_subnet`). -/
theorem change_subnet_spec_witness :
    _change_subnet 0x0100000000000ABC
        ⟨0x0100000000000000, 0xFF00000000000000⟩
        ⟨0x0200000000000000, 0xFF00000000000000⟩
      = some 0x0200000000000ABC := by
  have h := (change_subnet_spec 0x0100000000000ABC
      ⟨0x0100000000000000, 0xFF00000000000000⟩
      ⟨0x0200000000000000, 0xFF00000000000000⟩
      (by decide) (by decide) (by decide)).1 rfl (by decide)
  rw [h.1]
  rfl

/-- Claim C4: for every 64-bit integer `x` and every `Subnet` `s` such
that `s` matches `x` (`x & s.subnet_mask == s.subnet`),
`_change_subnet(x, from_=s, to_=s) == x`. -/
theorem change_subnet_self (x : Nat) (s : Subnet)
    (h : s.matches x = true) : _change_subnet x s s = some x := by
  unfold _change_subnet
  have hm : x &&& s.subnet_mask = s.subnet := by
    simpa [Subnet.matches] using h
  simp only [if_neg (by simp : ¬ s.subnet_mask ≠ s.subnet_mask), hm,
    if_neg (by simp : ¬ s.subnet ≠ s.subnet)]
  congr 1
  rw [← hm]
  apply Nat.eq_of_testBit_eq
  intro i
  simp only [Nat.testBit_or, Nat.testBit_xor, Nat.testBit_and]
  cases x.testBit i <;> cases s.subnet_mask.testBit i <;> rfl

/-- Claim C4 witness: `_change_subnet` is the identity on the concrete
subnet `01/8` and the concrete id `0x0100000000000ABC` that matches it. -/
theorem change_subnet_self_witness :
    _change_subnet 0x0100000000000ABC
      ⟨0x0100000000000000, 0xFF00000000000000⟩
      ⟨0x0100000000000000, 0xFF00000000000000⟩ = some 0x0100000000000ABC :=
  change_subnet_self 0x0100000000000ABC
    ⟨0x0100000000000000, 0xFF00000000000000⟩ (by decide)

/-- Claim C9 counterexample: the claim says every hexadecimal string of
at most 16 digits parses successfully, but the source's range check
`0 <= subnet < 0xffffffffffffffff` is strict, so the 16-digit string
`ffffffffffffffff` (value `2^64 - 1`) raises `ValueError`. -/
theorem subnet_parse_all_ones_fails :
    Subnet.parse "ffffffffffffffff" = .error "invalid subnet" := by rfl

/-- Claim C9 (amended): for every hexadecimal string `s` of at most 16
hex digits whose value placed in the leading bits is not `2^64 - 1`,
`Subnet.parse(s)` succeeds and returns the pair `(value, mask)` where
`value` is the digits of `s` placed in the leading `4*len(s)` bits of a
64-bit word and `mask` covers exactly those leading bits; the empty
string yields `(0, 0)`, which matches every 64-bit integer; strings
longer than 16 hex digits raise `ValueError`; the all-ones string
(16 `f` digits, excluded above) raises `ValueError` as well
(`subnet_parse_all_ones_fails`). -/
theorem subnet_parse_spec :
    (∀ ds : List Char, ds.all isHexDigitChar = true → ds.length ≤ 16 →
        hexVal ds <<< (64 - 4 * ds.length) ≠ 2 ^ 64 - 1 →
        Subnet.parse (String.mk ds) =
          .ok ⟨hexVal ds <<< (64 - 4 * ds.length),
               2 ^ 64 - 2 ^ (64 - 4 * ds.length)⟩)
    ∧ Subnet.parse (String.mk []) = .ok ⟨0, 0⟩
    ∧ (∀ x : Nat, Subnet.matches ⟨0, 0⟩ x = true)
    ∧ (∀ i, i ≤ 63 → ∀ ds : List Char, ds.length ≤ 16 →
        ((2 : Nat) ^ 64 - 2 ^ (64 - 4 * ds.length)).testBit i
          = decide (64 - 4 * ds.length ≤ i))
    ∧ (∀ s : String, 16 < s.length →
        Subnet.parse s = .error "invalid subnet") := by
  refine ⟨?_, by rfl, ?_, ?_, ?_⟩
  · intro ds hdig hlen hne
    by_cases hnil : ds = []
    · subst hnil
      rfl
    · rw [Subnet.parse_digits ds hnil hdig hlen]
      rw [if_pos ?_]
      have hlt := shifted_hexVal_lt ds hlen
      have : (0xffffffffffffffff : Nat) = 2 ^ 64 - 1 := by norm_num
      omega
  · intro x
    simp [Subnet.matches]
  · intro i hi ds hlen
    rw [mask_eq_shift (4 * ds.length) (by omega)]
    simp only [Nat.testBit_shiftLeft, Nat.testBit_two_pow_sub_one]
    by_cases hge : 64 - 4 * ds.length ≤ i
    · have : i - (64 - 4 * ds.length) < 4 * ds.length := by omega
      simp [hge, this]
    · simp [hge]
  · intro s hlen
    obtain ⟨ds⟩ := s
    rw [String.length_mk] at hlen
    unfold Subnet.parse
    rw [if_pos (by rw [String.length_mk]; omega)]

/-- Claim C9 witness: `Subnet.parse "1234abcd"` returns the subnet value
`0x1234ABCD00000000` with mask `0xFFFFFFFF00000000`. -/
theorem subnet_parse_spec_witness :
    Subnet.parse (String.mk ['1', '2', '3', '4', 'a', 'b', 'c', 'd'])
      = .ok ⟨0x1234ABCD00000000, 0xFFFFFFFF00000000⟩ := by
  have h := subnet_parse_spec.1 ['1', '2', '3', '4', 'a', 'b', 'c', 'd']
    (by decide) (by decide) (by decide)
  rw [h]
  rfl

/-- Claim C1: on the spec's CA-rewrite scenario the code rewrites
`creditor_id` from the node's creditors subnet (`000008`) to the peer's
(`000001`), but — contrary to the claim, the spec's routing table and
the repository's own test (`test_transform_message_ca`, which expects
`coordinator_id = 0x0000010000000002`) — it leaves `coordinator_id`
unchanged at `0x0000080000000002`: this revision of
`transform_message` only assigns `msg_data['creditor_id']`. -/
theorem transform_ca_keeps_coordinator_id :
    transform_message caNode caPeer prepareTransferAgentRmq =
      .ok ⟨"1", "PrepareTransfer",
           some ⟨"PrepareTransfer", 0x1234ABCD00000001, 0x0000010000000ABC,
                 some (0x0000080000000002, "agent")⟩,
           "application/json"⟩ := by
  rfl

/-- Claim C2 counterexample: at an AA node, `transform_message` succeeds
on a valid `AccountPurge` broker message, but feeding its output back to
`preprocess_message` with the same `(node, peer)` raises a
`ServerError` (the client/server message-type partition rejects it), so
the composition is not a no-op on any message. -/
theorem aa_roundtrip_raises :
    transform_message aaNode aaPeer accountPurgeRmq = .ok accountPurgeMsg
    ∧ preprocess_message aaNode aaPeer accountPurgeMsg =
        .error (.server ⟨.invalidMessageType, "1",
          some ⟨"AccountPurge", 5, 7, none⟩, "AccountPurge",
          "application/json"⟩) := by
  exact ⟨rfl, rfl⟩

/-- Claim C6: on an inbound CA-role `RejectedTransfer` this revision of
`preprocess_message` builds the `'creditor-id'` header from the local
`creditor_id` variable read *before* the subnet rewrite: the header
carries the peer-subnet value `0x0000010100000ABC` while the returned
body carries the rewritten value `0x0000080100000ABC`, contradicting the
claim (and the repository's own test `test_preprocess_message_ca`, which
expects the header to equal `0x0000080100000ABC`). -/
theorem preprocess_ca_header_uses_prerewrite_creditor :
    preprocess_message caNode caPeer rejectedTransferMsg =
      .ok ⟨"1", "RejectedTransfer",
           some ⟨"RejectedTransfer", 0x1234ABCD00000001, 0x0000080100000ABC,
                 some (0x0000010100000ABC, "direct")⟩,
           [("message-type", .str "RejectedTransfer"),
            ("debtor-id", .int 0x1234ABCD00000001),
            ("creditor-id", .int 0x0000010100000ABC),
            ("coordinator-id", .int 0x0000010100000ABC),
            ("coordinator-type", .str "direct")],
           "application/json", ""⟩ := by
  rfl

/-- Claim C7: this revision of `preprocess_message` returns the literal
`routing_key = ''` (the source carries a `TODO: Set a routing key.`
comment), not the 24-bit binary routing key that the claim describes and
that the repository's own test (`test_preprocess_message_aa`, which
expects `_calc_bin_routing_key(debtor_id, creditor_id)`) requires. -/
theorem preprocess_routing_key_is_empty :
    preprocess_message aaNode aaPeerCA prepareTransferDirectMsg =
      .ok ⟨"1", "PrepareTransfer",
           some ⟨"PrepareTransfer", 0x1234ABCD00000001, 0x0000010000000ABC,
                 some (0x0000010000000ABC, "direct")⟩,
           [("message-type", .str "PrepareTransfer"),
            ("debtor-id", .int 0x1234ABCD00000001),
            ("creditor-id", .int 0x0000010000000ABC),
            ("coordinator-id", .int 0x0000010000000ABC),
            ("coordinator-type", .str "direct")],
           "application/json", ""⟩ := by
  rfl

/-- Claim C8: this revision of `preprocess_message` performs no
`coordinator_type` validation (the source carries a
`TODO: Verify "coordinator-type".` comment): a `PrepareTransfer`
carrying the coordinator type `"invalid"` is accepted and returned as an
`RmqMessage`, while the claim (and the repository's own test
`test_preprocess_message_aa`) requires a `ProcessingError` surfaced as a
`ServerError`. -/
theorem preprocess_accepts_unknown_coordinator_type :
    preprocess_message aaNode aaPeerCA prepareTransferInvalidCtypeMsg =
      .ok ⟨"1", "PrepareTransfer",
           some ⟨"PrepareTransfer", 0x1234ABCD00000001, 0x0000010000000ABC,
                 some (0x0000020000000ABC, "invalid")⟩,
           [("message-type", .str "PrepareTransfer"),
            ("debtor-id", .int 0x1234ABCD00000001),
            ("creditor-id", .int 0x0000010000000ABC),
            ("coordinator-id", .int 0x0000020000000ABC),
            ("coordinator-type", .str "invalid")],
           "application/json", ""⟩ := by
  rfl

/-- Claim C5 counterexample: with a CA owner whose creditors-subnet mask
(8 bits) differs from the peer's (12 bits), a message whose creditor id
matches the owner's creditors subnet and whose debtor id matches the
peer's debtors subnet still does not produce a `Message`: the
`assert mask == to_.subnet_mask` in `_change_subnet` fires
(`AssertionError`), so "when both match ... a Message is returned" fails
as stated. -/
theorem transform_unequal_masks_asserts :
    caNodeShort.creditors_subnet.matches 0x0100000000000ABC = true
    ∧ peerOddMask.debtors_subnet.matches 7 = true
    ∧ transform_message caNodeShort peerOddMask prepareTransferOddRmq =
        .error .assertionError := by
  exact ⟨rfl, rfl, rfl⟩

theorem parse_message_body_ok (ct t : String) (b : Option MsgData)
    (ac as : Bool) (d : MsgData)
    (h : _parse_message_body ct t b ac as = .ok d) :
    ct = "application/json" ∧ b = some d ∧ schemaValidates t d = true
    ∧ (ac = false → t ∉ CLIENT_MESSAGE_TYPES)
    ∧ (as = false → t ∉ SERVER_MESSAGE_TYPES)
    ∧ (t ∈ CLIENT_MESSAGE_TYPES ∨ t ∈ SERVER_MESSAGE_TYPES) := by
  by_cases h1 : ct ≠ "application/json"
  · unfold _parse_message_body at h
    rw [if_pos h1] at h; cases h
  · by_cases h2 : ¬ ac ∧ t ∈ CLIENT_MESSAGE_TYPES
    · unfold _parse_message_body at h
      rw [if_neg h1, if_pos h2] at h; cases h
    · by_cases h3 : ¬ as ∧ t ∈ SERVER_MESSAGE_TYPES
      · unfold _parse_message_body at h
        rw [if_neg h1, if_neg h2, if_pos h3] at h; cases h
      · by_cases h4 : t ∉ CLIENT_MESSAGE_TYPES ∧ t ∉ SERVER_MESSAGE_TYPES
        · unfold _parse_message_body at h
          rw [if_neg h1, if_neg h2, if_neg h3, if_pos h4] at h; cases h
        · cases b with
          | none =>
            simp only [_parse_message_body, if_neg h1, if_neg h2,
              if_neg h3, if_neg h4] at h
            cases h
          | some d0 =>
            by_cases h5 : schemaValidates t d0 = true
            · simp only [_parse_message_body, if_neg h1, if_neg h2,
                if_neg h3, if_neg h4, if_pos h5] at h
              cases h
              refine ⟨by tauto, rfl, h5, ?_, ?_, by tauto⟩
              · intro hac hmem
                exact h2 ⟨by simp [hac], hmem⟩
              · intro has hmem
                exact h3 ⟨by simp [has], hmem⟩
            · simp only [_parse_message_body, if_neg h1, if_neg h2,
                if_neg h3, if_neg h4, if_neg h5] at h
              cases h

theorem parse_message_body_server_rejected (ct t : String)
    (b : Option MsgData) (ac as : Bool) (hac : ac = true) (has : as = false)
    (hct : ct = "application/json") (hs : t ∈ SERVER_MESSAGE_TYPES) :
    _parse_message_body ct t b ac as = .error .invalidMessageType := by
  subst hac
  subst has
  subst hct
  unfold _parse_message_body
  rw [if_neg (by simp)]
  rw [if_neg (by simp)]
  rw [if_pos ⟨by simp, hs⟩]

theorem preprocess_rejects_server_types (owner : NodeData)
    (peer2 : PeerData) (m : Message) (hAA : owner.node_type = NodeType.AA)
    (hct : m.content_type = "application/json")
    (hs : m.type ∈ SERVER_MESSAGE_TYPES) :
    preprocess_message owner peer2 m =
      .error (.server ⟨.invalidMessageType, m.id, m.body, m.type,
        m.content_type⟩) := by
  simp only [preprocess_message, hAA]
  rw [parse_message_body_server_rejected m.content_type m.type m.body
    (NodeType.AA == NodeType.AA) (NodeType.AA != NodeType.AA)
    rfl rfl hct hs]

theorem aa_transform_noop (owner : NodeData) (peer : PeerData)
    (msg : RmqMessage) (m : Message) (hAA : owner.node_type = NodeType.AA)
    (h : transform_message owner peer msg = .ok m) :
    m = ⟨msg.id, msg.type, msg.body, msg.content_type⟩
    ∧ msg.type ∈ SERVER_MESSAGE_TYPES
    ∧ m.content_type = "application/json" := by
  cases hp : _parse_message_body msg.content_type msg.type msg.body
      (owner.node_type != NodeType.AA) (owner.node_type == NodeType.AA) with
  | error e =>
    simp only [transform_message, hp] at h
    cases h
  | ok d =>
    rw [hAA] at hp
    obtain ⟨hct, hbody, hval, hnc, hns, hmem⟩ :=
      parse_message_body_ok msg.content_type msg.type msg.body
        (NodeType.AA != NodeType.AA) (NodeType.AA == NodeType.AA) d hp
    have hserver : msg.type ∈ SERVER_MESSAGE_TYPES := by
      rcases hmem with hc | hs
      · exact absurd hc (hnc rfl)
      · exact hs
    by_cases hc1 : ¬ owner.creditors_subnet.matches d.creditor_id
    · simp only [transform_message, hAA, hp, if_pos hc1] at h
      cases h
    · by_cases hc2 : ¬ peer.debtors_subnet.matches d.debtor_id
      · simp only [transform_message, hAA, hp, if_neg hc1,
          if_pos hc2] at h
        cases h
      · simp only [transform_message, hAA, hp, if_neg hc1, if_neg hc2,
          show (NodeType.AA == NodeType.CA) = false from rfl] at h
        cases h
        refine ⟨?_, hserver, rfl⟩
        rw [hbody, hct]

theorem aa_preprocess_noop (owner : NodeData) (peer : PeerData)
    (msg : Message) (r : RmqMessage) (hAA : owner.node_type = NodeType.AA)
    (h : preprocess_message owner peer msg = .ok r) :
    r.id = msg.id ∧ r.type = msg.type ∧ r.body = msg.body := by
  cases hp : _parse_message_body msg.content_type msg.type msg.body
      (owner.node_type == NodeType.AA) (owner.node_type != NodeType.AA) with
  | error e =>
    simp only [preprocess_message, hp] at h
    cases h
  | ok d =>
    rw [hAA] at hp
    obtain ⟨hct, hbody, hval, hnc, hns, hmem⟩ :=
      parse_message_body_ok msg.content_type msg.type msg.body
        (NodeType.AA == NodeType.AA) (NodeType.AA != NodeType.AA) d hp
    by_cases hc1 : ¬ peer.creditors_subnet.matches d.creditor_id
    · simp only [preprocess_message, hAA, hp, if_pos hc1] at h
      cases h
    · by_cases hc2 : ¬ peer.debtors_subnet.matches d.debtor_id
      · simp only [preprocess_message, hAA, hp, if_neg hc1,
          if_pos hc2] at h
        cases h
      · simp only [preprocess_message, hAA, hp, if_neg hc1, if_neg hc2,
          show (NodeType.AA == NodeType.CA) = false from rfl] at h
        cases h
        exact ⟨rfl, rfl, hbody.symm⟩

/-- Claim C2 (amended): when the node role is AA, `transform_message`
never alters the message (the returned body is JSON-equal to the input
body and id, type and content type are unchanged), and
`preprocess_message` at an AA node likewise returns the body unchanged;
but the literal composition `preprocess_message` after
`transform_message` at the same AA node is *not* a no-op: it always
raises a `ServerError`, because the client/server message-type partition
makes `preprocess_message` reject every type that `transform_message`
emits (see `aa_roundtrip_raises`). -/
theorem aa_transform_preprocess_spec (owner : NodeData) (peer : PeerData)
    (hAA : owner.node_type = NodeType.AA) :
    (∀ (msg : RmqMessage) (m : Message),
      transform_message owner peer msg = .ok m →
      (m.id = msg.id ∧ m.type = msg.type ∧ m.body = msg.body
        ∧ m.content_type = msg.content_type)
      ∧ ∀ peer2 : PeerData, ∃ e,
          preprocess_message owner peer2 m = .error e)
    ∧ (∀ (msg : Message) (r : RmqMessage),
      preprocess_message owner peer msg = .ok r →
      r.id = msg.id ∧ r.type = msg.type ∧ r.body = msg.body) := by
  constructor
  · intro msg m h
    obtain ⟨hm, hserver, hct⟩ := aa_transform_noop owner peer msg m hAA h
    constructor
    · rw [hm]
      exact ⟨rfl, rfl, rfl, rfl⟩
    · intro peer2
      refine ⟨_, preprocess_rejects_server_types owner peer2 m hAA hct ?_⟩
      rw [hm]
      exact hserver
  · intro msg r h
    exact aa_preprocess_noop owner peer msg r hAA h

/-- Claim C2 witness: instantiating the amended theorem at the concrete
AA node, peer and `AccountPurge` message. -/
theorem aa_transform_preprocess_spec_witness :
    (accountPurgeMsg.id = accountPurgeRmq.id
      ∧ accountPurgeMsg.type = accountPurgeRmq.type
      ∧ accountPurgeMsg.body = accountPurgeRmq.body
      ∧ accountPurgeMsg.content_type = accountPurgeRmq.content_type)
    ∧ ∃ e, preprocess_message aaNode aaPeer accountPurgeMsg = .error e := by
  have h := (aa_transform_preprocess_spec aaNode aaPeer rfl).1
    accountPurgeRmq accountPurgeMsg (by rfl)
  exact ⟨h.1, h.2 aaPeer⟩

/-- Claim C5 (amended): for every broker message whose body parses and
validates, `transform_message` raises `ProcessingError` exactly when the
creditor id does not match the owner node's creditors subnet or the
debtor id does not match the peer's debtors subnet; when both match and
— for a CA node — the owner's and peer's creditors-subnet masks are
equal, a `Message` is returned (with unequal masks the rewrite instead
fails the `assert` in `_change_subnet`; see
`transform_unequal_masks_asserts`). -/
theorem transform_subnet_checks (owner : NodeData) (peer : PeerData)
    (message : RmqMessage) (d : MsgData)
    (hparse : _parse_message_body message.content_type message.type
        message.body (owner.node_type != NodeType.AA)
        (owner.node_type == NodeType.AA) = .ok d)
    (hmask : owner.node_type = NodeType.CA →
      owner.creditors_subnet.subnet_mask
        = peer.creditors_subnet.subnet_mask) :
    ((∃ e, transform_message owner peer message = .error (.processing e))
      ↔ ¬ (owner.creditors_subnet.matches d.creditor_id = true
           ∧ peer.debtors_subnet.matches d.debtor_id = true))
    ∧ (owner.creditors_subnet.matches d.creditor_id = true →
       peer.debtors_subnet.matches d.debtor_id = true →
       ∃ m, transform_message owner peer message = .ok m) := by
  by_cases hc : owner.creditors_subnet.matches d.creditor_id = true
  · by_cases hd : peer.debtors_subnet.matches d.debtor_id = true
    · have hok : ∃ m, transform_message owner peer message = .ok m := by
        cases ho : owner.node_type with
        | CA =>
          rw [ho] at hparse
          have hmeq := hmask ho
          have hceq : d.creditor_id &&& owner.creditors_subnet.subnet_mask
              = owner.creditors_subnet.subnet := by
            simpa [Subnet.matches] using hc
          have hcs : _change_subnet d.creditor_id owner.creditors_subnet
              peer.creditors_subnet = some (peer.creditors_subnet.subnet |||
                ((d.creditor_id &&& owner.creditors_subnet.subnet_mask)
                  ^^^ d.creditor_id)) := by
            unfold _change_subnet
            rw [if_neg (by simp [hmeq]), if_neg (by simp [hceq])]
          refine ⟨⟨message.id, message.type,
            some { d with creditor_id := peer.creditors_subnet.subnet |||
              ((d.creditor_id &&& owner.creditors_subnet.subnet_mask)
                ^^^ d.creditor_id) }, "application/json"⟩, ?_⟩
          simp only [transform_message, hparse, ho, hcs,
            if_neg (not_not_intro hc), if_neg (not_not_intro hd),
            show (NodeType.CA == NodeType.CA) = true from rfl,
            Option.map]
          rfl
        | AA =>
          rw [ho] at hparse
          refine ⟨⟨message.id, message.type, some d,
            "application/json"⟩, ?_⟩
          simp only [transform_message, hparse, ho,
            if_neg (not_not_intro hc), if_neg (not_not_intro hd),
            show (NodeType.AA == NodeType.CA) = false from rfl]
          rfl
        | DA =>
          rw [ho] at hparse
          refine ⟨⟨message.id, message.type, some d,
            "application/json"⟩, ?_⟩
          simp only [transform_message, hparse, ho,
            if_neg (not_not_intro hc), if_neg (not_not_intro hd),
            show (NodeType.DA == NodeType.CA) = false from rfl]
          rfl
      obtain ⟨m, hm⟩ := hok
      constructor
      · constructor
        · intro ⟨e, he⟩
          rw [hm] at he
          cases he
        · intro hn
          exact absurd ⟨hc, hd⟩ hn
      · intro _ _
        exact ⟨m, hm⟩
    · constructor
      · constructor
        · intro _
          exact fun hn => hd hn.2
        · intro _
          refine ⟨.invalidDebtorId, ?_⟩
          simp only [transform_message, hparse,
            if_neg (not_not_intro hc), if_pos hd]
      · intro _ hd'
        exact absurd hd' hd
  · constructor
    · constructor
      · intro _
        exact fun hn => hc hn.1
      · intro _
        refine ⟨.invalidCreditorId, ?_⟩
        simp only [transform_message, hparse, if_pos hc]
    · intro hc' _
      exact absurd hc' hc

/-- Claim C5 witness: at the concrete AA node and all-matching peer, the
`AccountPurge` broker message passes both subnet checks and a `Message`
is returned. -/
theorem transform_subnet_checks_witness :
    ∃ m, transform_message aaNode aaPeer accountPurgeRmq = .ok m :=
  (transform_subnet_checks aaNode aaPeer accountPurgeRmq
      ⟨"AccountPurge", 5, 7, none⟩ rfl
      (fun h => absurd h (by decide))).2 (by decide) (by decide)

/-- Claim C10 counterexample: the claim says a token with an empty host
part such as `':8080'` is rejected with `ValueError`, but the source's
`_is_valid_hostname` starts with `hostname[-1]`, which on the empty
string raises `IndexError` instead. -/
theorem parse_servers_empty_host_raises_index_error :
    _parse_servers ":8080" = .error .indexError := by rfl

theorem parseServerToken_ok (t : List Char) (hp : String × Int)
    (hok : parseServerToken t = .ok hp) :
    1 ≤ hp.2 ∧ hp.2 ≤ 65535 ∧ _is_valid_hostname hp.1.data = .ok true := by
  cases hsc : splitFirstColon t with
  | none =>
    simp only [parseServerToken, hsc] at hok
    cases hok
  | some hostPort =>
    obtain ⟨host, port_str⟩ := hostPort
    cases hv : _is_valid_hostname host with
    | error e =>
      simp only [parseServerToken, hsc, hv] at hok
      cases hok
    | ok bv =>
      cases bv with
      | false =>
        simp only [parseServerToken, hsc, hv] at hok
        cases hok
      | true =>
        cases hpi : pyIntDec port_str with
        | none =>
          simp only [parseServerToken, hsc, hv, hpi] at hok
          cases hok
        | some port =>
          by_cases hr : 1 ≤ port ∧ port ≤ 65535
          · simp only [parseServerToken, hsc, hv, hpi, if_pos hr] at hok
            cases hok
            exact ⟨hr.1, hr.2, hv⟩
          · simp only [parseServerToken, hsc, hv, hpi, if_neg hr] at hok
            cases hok

theorem parseServersTokens_ok (ts : List (List Char))
    (l : List (String × Int)) (h : parseServersTokens ts = .ok l) :
    ∀ hp ∈ l, 1 ≤ hp.2 ∧ hp.2 ≤ 65535
      ∧ _is_valid_hostname hp.1.data = .ok true := by
  induction ts generalizing l with
  | nil =>
    unfold parseServersTokens at h
    cases h
    intro hp hmem
    cases hmem
  | cons t ts ih =>
    unfold parseServersTokens at h
    cases hone : parseServerToken t with
    | error e => rw [hone] at h; cases h
    | ok hp0 =>
      rw [hone] at h
      cases hrest : parseServersTokens ts with
      | error e => rw [hrest] at h; cases h
      | ok r =>
        rw [hrest] at h
        cases h
        intro hp hmem
        rcases List.mem_cons.mp hmem with heq | hmem2
        · subst heq
          exact parseServerToken_ok t hp hone
        · exact ih r hrest hp hmem2

theorem splitFirstColon_empty_host (t rest : List Char)
    (h : splitFirstColon t = some ([], rest)) : t.head? = some ':' := by
  cases t with
  | nil => cases h
  | cons c cs =>
    unfold splitFirstColon at h
    by_cases hc : c = ':'
    · simp [hc]
    · rw [if_neg hc] at h
      cases hs : splitFirstColon cs with
      | none => rw [hs] at h; cases h
      | some hostPort =>
        obtain ⟨h1, p1⟩ := hostPort
        rw [hs] at h
        cases h

theorem parseServerToken_index_error (t : List Char)
    (he : parseServerToken t = .error .indexError) : t.head? = some ':' := by
  cases hsc : splitFirstColon t with
  | none =>
    simp only [parseServerToken, hsc] at he
    cases he
  | some hostPort =>
    obtain ⟨host, port_str⟩ := hostPort
    cases hv : _is_valid_hostname host with
    | error e =>
      have hhost : host = [] := by
        cases hl : host.getLast? with
        | none => exact List.getLast?_eq_none_iff.mp hl
        | some c =>
          exfalso
          by_cases hlen : (if c = '.' then host.dropLast else host).length
              > 253
          · simp only [_is_valid_hostname, hl, if_pos hlen] at hv
            cases hv
          · simp only [_is_valid_hostname, hl, if_neg hlen] at hv
            cases hv
      subst hhost
      exact splitFirstColon_empty_host t port_str hsc
    | ok bv =>
      exfalso
      cases bv with
      | false =>
        simp only [parseServerToken, hsc, hv] at he
        cases he
      | true =>
        cases hpi : pyIntDec port_str with
        | none =>
          simp only [parseServerToken, hsc, hv, hpi] at he
          cases he
        | some port =>
          by_cases hr : 1 ≤ port ∧ port ≤ 65535
          · simp only [parseServerToken, hsc, hv, hpi, if_pos hr] at he
            cases he
          · simp only [parseServerToken, hsc, hv, hpi, if_neg hr] at he
            cases he

theorem parseServersTokens_index_error (ts : List (List Char))
    (h : parseServersTokens ts = .error .indexError) :
    ∃ t ∈ ts, t.head? = some ':' := by
  induction ts with
  | nil => unfold parseServersTokens at h; cases h
  | cons t ts ih =>
    unfold parseServersTokens at h
    cases hone : parseServerToken t with
    | error e =>
      rw [hone] at h
      cases h
      exact ⟨t, List.mem_cons_self t ts, parseServerToken_index_error t hone⟩
    | ok hp =>
      rw [hone] at h
      cases hrest : parseServersTokens ts with
      | error e =>
        rw [hrest] at h
        cases h
        obtain ⟨t2, ht2, hcolon⟩ := ih hrest
        exact ⟨t2, List.mem_cons_of_mem t ht2, hcolon⟩
      | ok r => rw [hrest] at h; cases h

/-- Claim C10 (amended): for every input string, `_parse_servers` either
returns a list of `(host, port)` pairs in which every port is between 1
and 65535 and every host is accepted by the hostname check (after
stripping at most one trailing dot, dot-separated labels of 1-63
letters, digits and hyphens — a label may additionally end in one
newline character — not starting or ending with a hyphen, total length
at most 253), or it raises `ValueError` — except that a token with an
empty host part (one starting with `':'`) raises `IndexError` instead
(`parse_servers_empty_host_raises_index_error`): whenever the result is
`IndexError`, some parsed token starts with `':'`. -/
theorem parse_servers_props (s : String) :
    (∀ l, _parse_servers s = .ok l →
      ∀ hp ∈ l, 1 ≤ hp.2 ∧ hp.2 ≤ 65535
        ∧ _is_valid_hostname hp.1.data = .ok true)
    ∧ (_parse_servers s = .error .indexError →
        ∃ t ∈ pySplitWs s.data 10000, t.head? = some ':') := by
  constructor
  · intro l hl
    exact parseServersTokens_ok (pySplitWs s.data 10000) l hl
  · intro h
    exact parseServersTokens_index_error (pySplitWs s.data 10000) h

/-- Claim C10 witness: `_parse_servers "example.com:8080"` yields one
server whose port is in range and whose host passes the hostname
check. -/
theorem parse_servers_props_witness :
    1 ≤ (8080 : Int) ∧ (8080 : Int) ≤ 65535
      ∧ _is_valid_hostname
          (String.mk ['e', 'x', 'a', 'm', 'p', 'l', 'e', '.',
            'c', 'o', 'm']).data = .ok true := by
  have h := (parse_servers_props "example.com:8080").1
    [(String.mk ['e', 'x', 'a', 'm', 'p', 'l', 'e', '.', 'c', 'o', 'm'],
      8080)] (by rfl)
    (String.mk ['e', 'x', 'a', 'm', 'p', 'l', 'e', '.', 'c', 'o', 'm'],
      8080) (by simp)
  exact h

end SwptStomp
